import Mathlib

/-!
Verification of the easy-mongoo schema compiler and auto-augmentation engine
(src/easy-mongoo.js).  The pure schema pipeline — shortcut token table, field
config processing, schema assembly, virtual/index/middleware synthesis, the
model registry and error normalization — is embedded shallowly below.  The
toJSON/toObject serialization options, nested object sub-schemas and the
asynchronous CRUD passthrough layer are outside the scope of the claims and
are not modelled.
-/

namespace EasyMongoo

/-- The mongoose type constructors that appear in the source
(`String`, `Number`, `Boolean`, `Date`, `Array`, `Object`, `Buffer`,
`mongoose.Schema.Types.ObjectId`, `mongoose.Schema.Types.Mixed`). -/
inductive JsType
  | string
  | number
  | boolean
  | date
  | array
  | object
  | buffer
  | objectId
  | mixed
deriving DecidableEq, Repr

/-- A field type reference: a mongoose constructor given directly, a type
name given as a string (resolved by `getMongooseType`), or a truthy member
inherited from Object.prototype that leaked through the type-name bracket
lookup. -/
inductive TypeRef
  | direct (t : JsType)
  | byName (s : String)
  | protoMember (name : String)
deriving DecidableEq, Repr

/-- The regular expressions used by the source, identified by role; user
supplied patterns are carried opaquely by their source text. -/
inductive RegexSpec
  | emailRegex
  | urlRegex
  | custom (source : String)
deriving DecidableEq, Repr

/-- Default values appearing in the shortcut table and in user configs. -/
inductive DefaultVal
  | emptyString
  | zero
  | falseV
  | dateNow
  | emptyArray
  | strVal (s : String)
  | numVal (n : Int)
  | boolVal (b : Bool)
deriving DecidableEq, Repr

/-- A mongoose field configuration object, with the keys the source reads or
writes.  `none` renders a key that is absent (JS `undefined`). -/
structure FieldConfig where
  typeRef : Option TypeRef := none
  required : Bool := false
  requiredMessage : Option String := none
  unique : Bool := false
  lowercase : Option Bool := none
  matchRegex : Option (RegexSpec × String) := none
  defaultVal : Option DefaultVal := none
  minlength : Option Nat := none
  maxlength : Option Nat := none
  ref : Option String := none
  trim : Option Bool := none
  enumVals : Option (List String) := none
  validateMessage : Option String := none
  minVal : Option Int := none
  maxVal : Option Int := none
  minMessage : Option String := none
  maxMessage : Option String := none
deriving DecidableEq, Repr

/-- The value a shortcut token resolves to: a bare type constructor (for
example `'string?': String`), a configuration object, or — for a token naming
an Object.prototype property — the truthy member inherited through the JS
prototype chain by the bracket lookup. -/
inductive ResolvedEntry
  | bare (t : JsType)
  | config (c : FieldConfig)
  | protoMember (name : String)
deriving DecidableEq, Repr

/-- The `required: [true, '{PATH} is required']` message used by the table. -/
def requiredMsg : String := "{PATH} is required"

/-- The `match` pair of the email shortcut and of email name inference. -/
def emailMatch : RegexSpec × String := (RegexSpec.emailRegex, "Please enter a valid email")

/-- The `match` pair of the url shortcut. -/
def urlMatch : RegexSpec × String := (RegexSpec.urlRegex, "Please enter a valid URL")

/-- The property names inherited from Object.prototype: a JS bracket lookup
on an object literal finds these on the prototype chain when they are not own
keys, and every inherited member is truthy. -/
def objectPrototypeKeys : List String :=
  ["constructor", "hasOwnProperty", "isPrototypeOf", "propertyIsEnumerable",
   "toLocaleString", "toString", "valueOf", "__defineGetter__",
   "__defineSetter__", "__lookupGetter__", "__lookupSetter__", "__proto__"]

/-- The own entries of the `_parseSmartShortcut` shortcut table, in source
order. -/
def shortcuts : List (String × ResolvedEntry) :=
  [ ("string!", .config { typeRef := some (.direct .string), required := true, requiredMessage := some requiredMsg }),
    ("number!", .config { typeRef := some (.direct .number), required := true, requiredMessage := some requiredMsg }),
    ("boolean!", .config { typeRef := some (.direct .boolean), required := true, requiredMessage := some requiredMsg }),
    ("date!", .config { typeRef := some (.direct .date), required := true, requiredMessage := some requiredMsg }),
    ("array!", .config { typeRef := some (.direct .array), required := true, requiredMessage := some requiredMsg }),
    ("object!", .config { typeRef := some (.direct .object), required := true, requiredMessage := some requiredMsg }),
    ("string?", .bare .string),
    ("number?", .bare .number),
    ("boolean?", .bare .boolean),
    ("date?", .bare .date),
    ("array?", .bare .array),
    ("object?", .bare .object),
    ("string+", .config { typeRef := some (.direct .string), defaultVal := some .emptyString }),
    ("number+", .config { typeRef := some (.direct .number), defaultVal := some .zero }),
    ("boolean+", .config { typeRef := some (.direct .boolean), defaultVal := some .falseV }),
    ("date+", .config { typeRef := some (.direct .date), defaultVal := some .dateNow }),
    ("array+", .config { typeRef := some (.direct .array), defaultVal := some .emptyArray }),
    ("string!!", .config { typeRef := some (.direct .string), required := true, unique := true }),
    ("number!!", .config { typeRef := some (.direct .number), required := true, unique := true }),
    ("string", .bare .string),
    ("number", .bare .number),
    ("boolean", .bare .boolean),
    ("date", .bare .date),
    ("array", .bare .array),
    ("object", .bare .object),
    ("buffer", .bare .buffer),
    ("email", .config { typeRef := some (.direct .string), required := true, lowercase := some true, matchRegex := some emailMatch }),
    ("url", .config { typeRef := some (.direct .string), matchRegex := some urlMatch }),
    ("password", .config { typeRef := some (.direct .string), required := true, minlength := some 6 }),
    ("userRef", .config { typeRef := some (.direct .objectId), ref := some "User" }),
    ("postRef", .config { typeRef := some (.direct .objectId), ref := some "Post" }),
    ("productRef", .config { typeRef := some (.direct .objectId), ref := some "Product" }) ]

/-- JS bracket access on the shortcut object literal: own keys first, then
the inherited Object.prototype members. -/
def shortcutsGet (key : String) : Option ResolvedEntry :=
  match shortcuts.lookup key with
  | some v => some v
  | none => if key ∈ objectPrototypeKeys then some (.protoMember key) else none

/-- `_parseSmartShortcut`: `shortcuts[shortcut] || { type: String }` — every
value the bracket lookup can find (an own entry or an inherited prototype
member) is truthy, so the fallback fires exactly when the lookup finds
nothing. -/
def parseSmartShortcut (shortcut : String) : ResolvedEntry :=
  (shortcutsGet shortcut).getD (.config { typeRef := some (.direct .string) })

/-- The own entries of the `_getMongooseType` type-name table. -/
def typeMap : List (String × JsType) :=
  [("string", .string), ("number", .number), ("boolean", .boolean),
   ("date", .date), ("array", .array), ("object", .object),
   ("buffer", .buffer), ("objectid", .objectId), ("mixed", .mixed)]

/-- `_getMongooseType`: `typeMap[typeString] || String` — own keys first,
then the truthy inherited Object.prototype members, then the `String`
fallback. -/
def getMongooseType (typeString : String) : TypeRef :=
  match typeMap.lookup typeString with
  | some t => .direct t
  | none =>
      if typeString ∈ objectPrototypeKeys then .protoMember typeString else .direct .string

/-- JS `sub.isSubstringOf s` style check used for `includes`. -/
def listHasInfix (sub : List Char) : List Char → Bool
  | [] => List.isPrefixOf sub []
  | c :: rest => List.isPrefixOf sub (c :: rest) || listHasInfix sub rest

/-- JS `s.includes(sub)`. -/
def jsIncludes (s sub : String) : Bool := listHasInfix sub.toList s.toList

/-- JS `s.toLowerCase()` on the character list. -/
def jsToLower (s : String) : String := String.mk (s.toList.map Char.toLower)

/-- Step of `_processFieldConfig`: convert a type given as a string to a
mongoose type through `_getMongooseType`. -/
def resolveTypeName (c : FieldConfig) : FieldConfig :=
  match c.typeRef with
  | some (.byName s) => { c with typeRef := some (getMongooseType s) }
  | _ => c

/-- Step of `_processFieldConfig`: auto-add the enum validation message when an
enum is present and no validator was given. -/
def autoEnumValidator (c : FieldConfig) : FieldConfig :=
  match c.enumVals, c.validateMessage with
  | some vals, none =>
      { c with validateMessage := some ("{PATH} must be one of: " ++ String.intercalate ", " vals) }
  | _, _ => c

/-- Step of `_processFieldConfig`: auto-add min/max messages; the JS guards
`processed.min && !processed.minlength` use number truthiness, so a zero bound
counts as absent. -/
def autoMinMaxMessages (c : FieldConfig) : FieldConfig :=
  let c1 := if c.minVal.getD 0 != 0 && c.minlength.getD 0 == 0 then
      { c with minMessage := some "{PATH} must be at least {MIN}" }
    else c
  if c1.maxVal.getD 0 != 0 && c1.maxlength.getD 0 == 0 then
    { c1 with maxMessage := some "{PATH} cannot exceed {MAX}" }
  else c1

/-- Step of `_processFieldConfig` (lines 193-199): a field whose lowercased
name contains "email" always gets `lowercase = true`, and gets the email
pattern only when no `match` was given. -/
def autoEmailInference (fieldName : String) (c : FieldConfig) : FieldConfig :=
  if jsIncludes (jsToLower fieldName) "email" then
    let c1 := { c with lowercase := some true }
    match c1.matchRegex with
    | none => { c1 with matchRegex := some emailMatch }
    | some _ => c1
  else c

/-- Step of `_processFieldConfig`: auto-trim string fields whose `trim` key is
undefined. -/
def autoTrim (c : FieldConfig) : FieldConfig :=
  if c.typeRef == some (.direct .string) && c.trim == none then
    { c with trim := some true }
  else c

/-- `_processFieldConfig`, as the sequence of its blocks in source order. -/
def processFieldConfig (fieldName : String) (config : FieldConfig) : FieldConfig :=
  autoTrim (autoEmailInference fieldName (autoMinMaxMessages (autoEnumValidator (resolveTypeName config))))

/-- One raw entry of a schema definition object: a shorthand token string, an
array (modelled for arrays of token strings, the shape the repository uses), a
configuration object, or a bare type constructor. -/
inductive RawEntry
  | token (s : String)
  | arr (elems : List String)
  | config (c : FieldConfig)
  | bare (t : JsType)
deriving DecidableEq, Repr

/-- A raw schema definition: field name to raw entry, in insertion order. -/
abbrev Definition := List (String × RawEntry)

/-- One entry of the converted definition produced by `_convertToFullSchema`;
a token naming an Object.prototype member carries the inherited value the
bracket lookup returned. -/
inductive SchemaEntry
  | bare (t : JsType)
  | config (c : FieldConfig)
  | arr (elems : List String)
  | protoMember (name : String)
deriving DecidableEq, Repr

/-- The per-field dispatch of `_convertToFullSchema`: token strings go through
`_parseSmartShortcut`, arrays are passed through unchanged, objects go through
`_processFieldConfig`; a bare constructor matches none of the three branches of
the source and the field is dropped from the converted definition. -/
def convertEntry (field : String) : RawEntry → Option SchemaEntry
  | .token s =>
      some (match parseSmartShortcut s with
        | .bare t => .bare t
        | .config c => .config c
        | .protoMember n => .protoMember n)
  | .arr xs => some (.arr xs)
  | .config c => some (.config (processFieldConfig field c))
  | .bare _ => none

/-- `_convertToFullSchema`. -/
def convertToFullSchema (definition : Definition) : List (String × SchemaEntry) :=
  definition.filterMap (fun fc => (convertEntry fc.1 fc.2).map (fun e => (fc.1, e)))

/-- The schema options the pipeline inspects; the source defaults timestamps on
and lets the caller override them. -/
structure SchemaOptions where
  timestamps : Bool := true
deriving DecidableEq, Repr

/-- An index registered on a schema: the key list with 1 for ascending and -1
for descending, plus the option flags `_addAutoIndexes` uses. -/
structure IndexSpec where
  keys : List (String × Int)
  unique : Bool := false
  sparse : Bool := false
deriving DecidableEq, Repr

/-- A compiled mongoose schema: the converted fields, the timestamp option, and
the virtuals, indexes and hooks registered on it, in registration order. -/
structure MSchema where
  fields : List (String × SchemaEntry)
  timestamps : Bool
  virtuals : List String := []
  indexes : List IndexSpec := []
  preHooks : List String := []
  postHooks : List String := []
  statics : List String := []
  methods : List String := []
  queryHelpers : List String := []
  plugins : List String := []
deriving DecidableEq, Repr

/-- `schema.paths` membership for a declared field. -/
def hasPath (s : MSchema) (p : String) : Bool :=
  s.fields.any (fun fc => fc.1 == p)

/-- `_addCommonVirtuals`: always a formatted created-at virtual; an age virtual
when a birthDate or dob path exists; a fullName virtual when both firstName and
lastName paths exist. -/
def addCommonVirtuals (s : MSchema) : MSchema :=
  let s1 := { s with virtuals := s.virtuals ++ ["createdAtFormatted"] }
  let s2 := if hasPath s1 "birthDate" || hasPath s1 "dob" then
      { s1 with virtuals := s1.virtuals ++ ["age"] }
    else s1
  if hasPath s2 "firstName" && hasPath s2 "lastName" then
    { s2 with virtuals := s2.virtuals ++ ["fullName"] }
  else s2

/-- The `schema(definition, options)` entry point: convert the definition,
apply the default-or-overridden options, and add the common virtuals. -/
def buildSchema (definition : Definition) (options : SchemaOptions) : MSchema :=
  addCommonVirtuals
    { fields := convertToFullSchema definition, timestamps := options.timestamps }

/-- JS truthiness of a raw definition entry: only the empty token string is
falsy among the representable entries. -/
def entryTruthy : RawEntry → Bool
  | .token s => !(s == "")
  | _ => true

/-- `_addAutoIndexes`: a unique sparse email index when the raw definition has
a truthy `email` entry, always a descending createdAt and updatedAt index, and
an ascending index for every field declared with a boolean shorthand token. -/
def addAutoIndexes (s : MSchema) (definition : Definition) : MSchema :=
  let s1 := match definition.lookup "email" with
    | some e =>
        if entryTruthy e then
          { s with indexes := s.indexes ++ [({ keys := [("email", 1)], unique := true, sparse := true } : IndexSpec)] }
        else s
    | none => s
  let s2 := { s1 with indexes := s1.indexes ++ [({ keys := [("createdAt", -1)] } : IndexSpec), ({ keys := [("updatedAt", -1)] } : IndexSpec)] }
  { s2 with indexes := s2.indexes ++ definition.filterMap (fun fc : String × RawEntry =>
      if fc.2 == RawEntry.token "boolean!" || fc.2 == RawEntry.token "boolean?" || fc.2 == RawEntry.token "boolean+" then
        some ({ keys := [(fc.1, 1)] } : IndexSpec)
      else none) }

/-- `_addAutoMiddleware`: a slugify pre-save hook when a name or title path
exists, a password-hash pre-save hook when a password path exists, and the
post-save and post-remove logging hooks. -/
def addAutoMiddleware (s : MSchema) (modelName : String) : MSchema :=
  let _ := modelName
  let s1 := if hasPath s "name" || hasPath s "title" then
      { s with preHooks := s.preHooks ++ ["save:slugify"] }
    else s
  let s2 := if hasPath s1 "password" then
      { s1 with preHooks := s1.preHooks ++ ["save:hashPassword"] }
    else s1
  { s2 with postHooks := s2.postHooks ++ ["save:log", "remove:log"] }

/-- The registry state of the EasyMongoo instance: the `models` and `schemas`
maps (kept as insertion-ordered association lists, as the source always sets
both together), plus a log of the compilations actually performed, so that the
absence of recompilation is directly observable. -/
structure RegistryState where
  models : List (String × MSchema) := []
  schemas : List (String × MSchema) := []
  compiled : List (String × Definition) := []
deriving DecidableEq, Repr

/-- `model(name, schemaDef, options)` for a raw definition: return the cached
model when the name is registered, otherwise compile the schema, add the auto
indexes and middleware, and store the result under the name in both maps. -/
def registerModel (st : RegistryState) (name : String) (schemaDef : Definition)
    (options : SchemaOptions) : MSchema × RegistryState :=
  match st.models.lookup name with
  | some m => (m, st)
  | none =>
      let sch := addAutoMiddleware (addAutoIndexes (buildSchema schemaDef options) schemaDef) name
      (sch,
        { models := st.models ++ [(name, sch)],
          schemas := st.schemas ++ [(name, sch)],
          compiled := st.compiled ++ [(name, schemaDef)] })

/-- The failure raised by the schema-extension operations and `_getModel` when
the model name is not registered. -/
inductive EmError
  | modelNotFound (name : String)
deriving DecidableEq, Repr

/-- Replacing the stored schema of a registered name models the in-place
mutation of the shared schema object, visible through both maps. -/
def updateStored (st : RegistryState) (name : String) (sch : MSchema) : RegistryState :=
  { st with
    models := st.models.map (fun e => if e.1 == name then (e.1, sch) else e),
    schemas := st.schemas.map (fun e => if e.1 == name then (e.1, sch) else e) }

/-- The common shape of the schema-extension operations: look the schema up in
`this.schemas`, throw the not-found error when absent, otherwise mutate it. -/
def extendSchema (st : RegistryState) (modelName : String) (f : MSchema → MSchema) :
    Except EmError Unit × RegistryState :=
  match st.schemas.lookup modelName with
  | none => (.error (.modelNotFound modelName), st)
  | some sch => (.ok (), updateStored st modelName (f sch))

/-- `virtual(modelName, field, getter, setter)`. -/
def virtualOp (st : RegistryState) (modelName field : String) :
    Except EmError Unit × RegistryState :=
  extendSchema st modelName (fun sch => { sch with virtuals := sch.virtuals ++ [field] })

/-- `static(modelName, name, method)`. -/
def staticOp (st : RegistryState) (modelName name : String) :
    Except EmError Unit × RegistryState :=
  extendSchema st modelName (fun sch => { sch with statics := sch.statics ++ [name] })

/-- `method(modelName, name, method)`. -/
def methodOp (st : RegistryState) (modelName name : String) :
    Except EmError Unit × RegistryState :=
  extendSchema st modelName (fun sch => { sch with methods := sch.methods ++ [name] })

/-- `query(modelName, name, helper)`. -/
def queryOp (st : RegistryState) (modelName name : String) :
    Except EmError Unit × RegistryState :=
  extendSchema st modelName (fun sch => { sch with queryHelpers := sch.queryHelpers ++ [name] })

/-- `pre(modelName, hook, callback)`. -/
def preOp (st : RegistryState) (modelName hook : String) :
    Except EmError Unit × RegistryState :=
  extendSchema st modelName (fun sch => { sch with preHooks := sch.preHooks ++ [hook] })

/-- `post(modelName, hook, callback)`. -/
def postOp (st : RegistryState) (modelName hook : String) :
    Except EmError Unit × RegistryState :=
  extendSchema st modelName (fun sch => { sch with postHooks := sch.postHooks ++ [hook] })

/-- `plugin(modelName, plugin, options)`. -/
def pluginOp (st : RegistryState) (modelName pluginName : String) :
    Except EmError Unit × RegistryState :=
  extendSchema st modelName (fun sch => { sch with plugins := sch.plugins ++ [pluginName] })

/-- The shape of a raw failure coming back from the mapping runtime, with the
keys `_handleError` inspects: the numeric code, the error class name, the keys
of `keyValue`, and the messages of the validation sub-errors. -/
structure SourceFailure where
  code : Option Int := none
  name : Option String := none
  keyValueKeys : List String := []
  errorMessages : List String := []
deriving DecidableEq, Repr

/-- The closed classification of a normalized error, one kind per branch of
`_handleError`. -/
inductive ErrorKind
  | duplicateKey
  | validationFailed
  | invalidIdentifier
  | unknownFailure
deriving DecidableEq, Repr

/-- The normalized error produced by `_handleError`: the simplified message
plus the original failure attached as `originalError`. -/
structure ErrorRecord where
  kind : ErrorKind
  message : String
  originalError : SourceFailure
deriving DecidableEq, Repr

/-- `_handleError(operation, error)`: code 11000 maps to the duplicate-key
message built from the first `keyValue` key (JS renders a missing key as the
string undefined), ValidationError joins the sub-error messages, CastError is
the invalid-id message, anything else the failed-operation message. -/
def handleError (operation : String) (error : SourceFailure) : ErrorRecord :=
  if error.code == some 11000 then
    let field := error.keyValueKeys.headD "undefined"
    { kind := .duplicateKey,
      message := field ++ " already exists. Please use a different value.",
      originalError := error }
  else if error.name == some "ValidationError" then
    { kind := .validationFailed,
      message := "Validation failed: " ++ String.intercalate ", " error.errorMessages,
      originalError := error }
  else if error.name == some "CastError" then
    { kind := .invalidIdentifier, message := "Invalid ID format", originalError := error }
  else
    { kind := .unknownFailure, message := "Failed to " ++ operation, originalError := error }

/-- The body of the age virtual:
`Math.floor((Date.now() - birth) / (365.25 * 24 * 60 * 60 * 1000))`, with times
in milliseconds.  All quantities involved are exactly representable, so the
floating point computation of the source coincides with the exact rational
floor. -/
def ageFloor (nowMs birth : Int) : Int :=
  ⌊((nowMs - birth : Int) : ℚ) / ((365.25 : ℚ) * 24 * 60 * 60 * 1000)⌋

/-- The age virtual getter: null when neither birthDate nor dob is set,
otherwise the floor computation on `birthDate || dob`. -/
def ageVirtualGetter (birthDate dob : Option Int) (nowMs : Int) : Option Int :=
  match birthDate, dob with
  | none, none => none
  | some b, _ => some (ageFloor nowMs b)
  | none, some b => some (ageFloor nowMs b)

theorem lookup_eq_none_of_not_mem {β : Type} {l : List (String × β)} {a : String}
    (h : a ∉ l.map Prod.fst) : l.lookup a = none := by
  induction l with
  | nil => rfl
  | cons p t ih =>
    simp only [List.map_cons, List.mem_cons, not_or] at h
    obtain ⟨h1, h2⟩ := h
    obtain ⟨k, v⟩ := p
    simp only [List.lookup]
    rw [show (a == k) = false from beq_eq_false_iff_ne.mpr h1]
    exact ih h2

theorem lookup_append_singleton_of_none {β : Type} {l : List (String × β)} {a : String} (v : β)
    (h : l.lookup a = none) : (l ++ [(a, v)]).lookup a = some v := by
  induction l with
  | nil => simp [List.lookup]
  | cons p t ih =>
    obtain ⟨k, w⟩ := p
    simp only [List.lookup] at h ⊢
    cases hk : (a == k) with
    | true => rw [hk] at h; exact absurd h (by simp)
    | false => rw [hk] at h; exact ih h

/-- Counterexample for C4: the token "constructor" is not a key of the
shortcut table, yet it does not resolve to the documented fallback — the JS
bracket lookup finds the truthy member inherited from Object.prototype, so
the fallback is skipped and the resolved value is not a plain text
descriptor. -/
theorem parseSmartShortcut_constructor_not_fallback :
    "constructor" ∉ shortcuts.map Prod.fst ∧
    parseSmartShortcut "constructor" = .protoMember "constructor" ∧
    parseSmartShortcut "constructor" ≠ .config { typeRef := some (.direct .string) } := by
  decide

/-- C4 amended: token resolution never throws, but is fallback-total only
away from the prototype chain — a token that is neither a shortcut-table key
nor the name of an inherited Object.prototype member resolves to the fallback
`{ type: String }`, a plain text descriptor that is neither required nor
unique and carries no default, while an unrecognized token naming an
Object.prototype member resolves to the truthy inherited member instead of
the fallback. -/
theorem parseSmartShortcut_unknown_token_fallback (tok : String)
    (h1 : tok ∉ shortcuts.map Prod.fst) :
    (tok ∉ objectPrototypeKeys →
      parseSmartShortcut tok = .config { typeRef := some (.direct .string) }) ∧
    (tok ∈ objectPrototypeKeys → parseSmartShortcut tok = .protoMember tok) ∧
    ({ typeRef := some (.direct .string) } : FieldConfig).required = false ∧
    ({ typeRef := some (.direct .string) } : FieldConfig).unique = false ∧
    ({ typeRef := some (.direct .string) } : FieldConfig).defaultVal = none := by
  have hl : shortcuts.lookup tok = none := lookup_eq_none_of_not_mem h1
  refine ⟨fun h2 => ?_, fun h2 => ?_, rfl, rfl, rfl⟩
  · unfold parseSmartShortcut shortcutsGet
    rw [hl, if_neg h2]
    rfl
  · unfold parseSmartShortcut shortcutsGet
    rw [hl, if_pos h2]
    rfl

/-- Witness for C4 amended: the misspelled token "strng!" is in neither list
and resolves to the fallback descriptor, while the non-table token "toString"
names a prototype member and resolves to the inherited value. -/
theorem parseSmartShortcut_unknown_token_fallback_witness :
    parseSmartShortcut "strng!" = .config { typeRef := some (.direct .string) } ∧
    parseSmartShortcut "toString" = .protoMember "toString" :=
  ⟨(parseSmartShortcut_unknown_token_fallback "strng!" (by decide)).1 (by decide),
   (parseSmartShortcut_unknown_token_fallback "toString" (by decide)).2.1 (by decide)⟩

/-- C5: every schema-extension operation — add virtual, static method,
instance method, query helper, pre hook, post hook, or plugin — on a model
name that is not registered fails with the model-not-found error and returns
the registry state unchanged. -/
theorem extendOps_unregistered_model_not_found (st : RegistryState) (Y a : String)
    (h : st.schemas.lookup Y = none) :
    virtualOp st Y a = (.error (.modelNotFound Y), st) ∧
    staticOp st Y a = (.error (.modelNotFound Y), st) ∧
    methodOp st Y a = (.error (.modelNotFound Y), st) ∧
    queryOp st Y a = (.error (.modelNotFound Y), st) ∧
    preOp st Y a = (.error (.modelNotFound Y), st) ∧
    postOp st Y a = (.error (.modelNotFound Y), st) ∧
    pluginOp st Y a = (.error (.modelNotFound Y), st) := by
  unfold virtualOp staticOp methodOp queryOp preOp postOp pluginOp extendSchema
  rw [h]
  exact ⟨rfl, rfl, rfl, rfl, rfl, rfl, rfl⟩

/-- Witness for C5: extending the never-registered name Y on a fresh registry
fails with the model-not-found error for all seven operations. -/
theorem extendOps_unregistered_model_not_found_witness :
    virtualOp {} "Y" "isAdult" = (.error (.modelNotFound "Y"), {}) ∧
    staticOp {} "Y" "isAdult" = (.error (.modelNotFound "Y"), {}) ∧
    methodOp {} "Y" "isAdult" = (.error (.modelNotFound "Y"), {}) ∧
    queryOp {} "Y" "isAdult" = (.error (.modelNotFound "Y"), {}) ∧
    preOp {} "Y" "isAdult" = (.error (.modelNotFound "Y"), {}) ∧
    postOp {} "Y" "isAdult" = (.error (.modelNotFound "Y"), {}) ∧
    pluginOp {} "Y" "isAdult" = (.error (.modelNotFound "Y"), {}) :=
  extendOps_unregistered_model_not_found {} "Y" "isAdult" rfl

/-- C6: a uniqueness-conflict failure (driver code 11000) reporting the
conflicting field F normalizes to a duplicate-key error record whose message
is exactly F followed by " already exists. Please use a different value.",
carrying the original failure as its cause. -/
theorem handleError_duplicate_key (operation F : String) (rest : List String)
    (e : SourceFailure) (hcode : e.code = some 11000) (hkeys : e.keyValueKeys = F :: rest) :
    handleError operation e =
      { kind := .duplicateKey,
        message := F ++ " already exists. Please use a different value.",
        originalError := e } := by
  unfold handleError
  rw [hcode, hkeys]
  simp

/-- Witness for C6: a code-11000 failure on the email field yields the exact
documented message. -/
theorem handleError_duplicate_key_witness :
    handleError "create User" { code := some 11000, keyValueKeys := ["email"] } =
      { kind := .duplicateKey,
        message := "email already exists. Please use a different value.",
        originalError := { code := some 11000, keyValueKeys := ["email"] } } :=
  handleError_duplicate_key "create User" "email" [] _ rfl rfl

/-- C7: the age virtual equals the floor of the elapsed milliseconds divided
by 365.25 days (floor division by 31557600000 ms); the concrete instance
365.25 times 30 days equals 946728000000 ms, and a birth date valued exactly
that far before now yields age 30. -/
theorem age_virtual_floor_365_25 :
    (∀ nowMs birth : Int, ageFloor nowMs birth = Int.fdiv (nowMs - birth) 31557600000) ∧
    ((365.25 : ℚ) * 24 * 60 * 60 * 1000) * 30 = ((946728000000 : Int) : ℚ) ∧
    (∀ nowMs : Int, ageVirtualGetter (some (nowMs - 946728000000)) none nowMs = some 30) := by
  have hdiv : ∀ a : Int, (⌊((a : Int) : ℚ) / ((365.25 : ℚ) * 24 * 60 * 60 * 1000)⌋ : Int) =
      Int.fdiv a 31557600000 := by
    intro a
    have h1 : ((365.25 : ℚ) * 24 * 60 * 60 * 1000) = ((31557600000 : ℕ) : ℚ) := by norm_num
    rw [h1, Rat.floor_intCast_div_natCast a 31557600000,
      Int.fdiv_eq_ediv a (by norm_num)]
    norm_num
  refine ⟨fun nowMs birth => hdiv (nowMs - birth), by norm_num, fun nowMs => ?_⟩
  show some (ageFloor nowMs (nowMs - 946728000000)) = some 30
  rw [show ageFloor nowMs (nowMs - 946728000000) =
      ⌊(((nowMs - (nowMs - 946728000000) : Int)) : ℚ) / ((365.25 : ℚ) * 24 * 60 * 60 * 1000)⌋
      from rfl]
  rw [show (nowMs - (nowMs - 946728000000) : Int) = 946728000000 by ring]
  rw [hdiv 946728000000]
  rfl

/-- The end-to-end demo descriptor of the specification. -/
def c1Descriptor : Definition :=
  [("name", .token "string!"), ("email", .token "email!!"), ("age", .token "number?")]

/-- C1: compiling the demo descriptor yields three fields with name a
required non-unique text field and age an optional numeric field, no fullName
virtual is synthesized, and a unique index keyed on email is added; however
the token "email!!" is not a key of the shipped shortcut table, so the email
field resolves through the unknown-token fallback to a plain optional text
field — not the required, unique, lowercased, pattern-validated field that
the README shortcut reference documents for "email!!". -/
theorem c1Descriptor_email_token_unrecognized :
    convertToFullSchema c1Descriptor =
      [("name", .config { typeRef := some (.direct .string), required := true, requiredMessage := some requiredMsg }),
       ("email", .config { typeRef := some (.direct .string) }),
       ("age", .bare .number)] ∧
    "email!!" ∉ shortcuts.map Prod.fst ∧
    parseSmartShortcut "email!!" = .config { typeRef := some (.direct .string) } ∧
    "fullName" ∉ (buildSchema c1Descriptor {}).virtuals ∧
    ({ keys := [("email", 1)], unique := true, sparse := true } : IndexSpec) ∈
      (registerModel {} "User" c1Descriptor {}).1.indexes := by
  decide

/-- C9: the shipped auto-index pass produces no text index at all — for a
definition declaring name, title and description fields, the only indexes
added are the descending createdAt and updatedAt indexes, contradicting the
README prose on auto-created weighted text-search indexes. -/
theorem registerModel_no_text_index :
    (registerModel {} "Product"
      [("name", .token "string!"), ("title", .token "string!"),
       ("description", .token "string?")] {}).1.indexes =
      [({ keys := [("createdAt", -1)] } : IndexSpec),
       ({ keys := [("updatedAt", -1)] } : IndexSpec)] := by
  decide

/-- Counterexample for C3: a schema tree that declares firstName, lastName
and a user field named fullName still gets a synthesized fullName virtual —
the synthesis pass performs no name-collision check. -/
theorem addCommonVirtuals_adds_fullName_despite_declared :
    "fullName" ∈ ((buildSchema [("firstName", .token "string!"), ("lastName", .token "string!"),
        ("fullName", .token "string?")] {}).fields.map Prod.fst) ∧
    "fullName" ∈ (buildSchema [("firstName", .token "string!"), ("lastName", .token "string!"),
        ("fullName", .token "string?")] {}).virtuals := by
  decide

/-- C3 amended: feature synthesis checks only for the presence of firstName
and lastName paths; whenever both exist it adds the fullName computed field,
with no collision detection against a user-declared field of that name. -/
theorem addCommonVirtuals_no_collision_check (d : Definition) (o : SchemaOptions)
    (h1 : (convertToFullSchema d).any (fun fc => fc.1 == "firstName") = true)
    (h2 : (convertToFullSchema d).any (fun fc => fc.1 == "lastName") = true) :
    "fullName" ∈ (buildSchema d o).virtuals := by
  unfold buildSchema addCommonVirtuals hasPath
  dsimp only
  split
  · simp only [h1, h2, Bool.and_self, if_true]
    simp
  · simp only [h1, h2, Bool.and_self, if_true]
    simp

/-- Witness for C3 amended: the collision tree of the counterexample
satisfies both hypotheses and receives the fullName virtual. -/
theorem addCommonVirtuals_no_collision_check_witness :
    "fullName" ∈ (buildSchema [("firstName", .token "string!"), ("lastName", .token "string!"),
        ("fullName", .token "string?")] { timestamps := true }).virtuals :=
  addCommonVirtuals_no_collision_check _ _ (by decide) (by decide)

/-- Counterexample for C8: a field named email whose config carries the
explicit user setting lowercase false has that setting overwritten to true by
name-driven inference. -/
theorem autoEmailInference_overwrites_lowercase_false :
    (processFieldConfig "email"
        { typeRef := some (.direct .string), lowercase := some false }).lowercase = some true ∧
    (processFieldConfig "email"
        { typeRef := some (.direct .string), lowercase := some false }).lowercase ≠ some false := by
  decide

theorem resolveTypeName_preserves (c : FieldConfig) :
    (resolveTypeName c).matchRegex = c.matchRegex ∧ (resolveTypeName c).lowercase = c.lowercase := by
  unfold resolveTypeName
  split <;> exact ⟨rfl, rfl⟩

theorem autoEnumValidator_preserves (c : FieldConfig) :
    (autoEnumValidator c).matchRegex = c.matchRegex ∧ (autoEnumValidator c).lowercase = c.lowercase := by
  unfold autoEnumValidator
  split <;> exact ⟨rfl, rfl⟩

theorem autoMinMaxMessages_preserves (c : FieldConfig) :
    (autoMinMaxMessages c).matchRegex = c.matchRegex ∧
    (autoMinMaxMessages c).lowercase = c.lowercase := by
  unfold autoMinMaxMessages
  dsimp only
  split <;> split <;> exact ⟨rfl, rfl⟩

theorem autoTrim_preserves (c : FieldConfig) :
    (autoTrim c).matchRegex = c.matchRegex ∧ (autoTrim c).lowercase = c.lowercase := by
  unfold autoTrim
  split <;> exact ⟨rfl, rfl⟩

/-- C8 amended: for a field whose name contains "email", inference fills the
email-shape pattern only when the user left `match` unset — a user-supplied
pattern is preserved — but it sets the lowercase flag unconditionally, so an
explicit user-supplied lowercase false is overwritten rather than preserved. -/
theorem autoEmailInference_fills_match_overwrites_lowercase (fieldName : String) (c : FieldConfig)
    (h : jsIncludes (jsToLower fieldName) "email" = true) :
    (processFieldConfig fieldName c).lowercase = some true ∧
    (∀ m, c.matchRegex = some m → (processFieldConfig fieldName c).matchRegex = some m) ∧
    (c.matchRegex = none → (processFieldConfig fieldName c).matchRegex = some emailMatch) := by
  unfold processFieldConfig
  set c3 := autoMinMaxMessages (autoEnumValidator (resolveTypeName c)) with hc3
  have hm : c3.matchRegex = c.matchRegex := by
    rw [hc3, (autoMinMaxMessages_preserves _).1, (autoEnumValidator_preserves _).1,
      (resolveTypeName_preserves _).1]
  have hstep : (autoEmailInference fieldName c3).lowercase = some true ∧
      (autoEmailInference fieldName c3).matchRegex =
        (if c3.matchRegex = none then some emailMatch else c3.matchRegex) := by
    unfold autoEmailInference
    rw [h]
    simp only [if_true]
    cases hmr : c3.matchRegex with
    | none => simp [hmr]
    | some m => simp [hmr]
  refine ⟨?_, ?_, ?_⟩
  · rw [(autoTrim_preserves _).2, hstep.1]
  · intro m hm0
    rw [(autoTrim_preserves _).1, hstep.2, hm, hm0]
    simp
  · intro hm0
    rw [(autoTrim_preserves _).1, hstep.2, hm, hm0]
    simp

/-- Witness for C8 amended: the field contactEmail with a user-supplied
custom pattern keeps that pattern while the lowercase flag is set. -/
theorem autoEmailInference_fills_match_overwrites_lowercase_witness :
    (processFieldConfig "contactEmail"
        { typeRef := some (.direct .string),
          matchRegex := some (RegexSpec.custom "corp", "corp only") }).lowercase = some true ∧
    (processFieldConfig "contactEmail"
        { typeRef := some (.direct .string),
          matchRegex := some (RegexSpec.custom "corp", "corp only") }).matchRegex =
      some (RegexSpec.custom "corp", "corp only") := by
  obtain ⟨hl, hkeep, _⟩ := autoEmailInference_fills_match_overwrites_lowercase "contactEmail"
    { typeRef := some (.direct .string),
      matchRegex := some (RegexSpec.custom "corp", "corp only") } (by decide)
  exact ⟨hl, hkeep _ rfl⟩

/-- C2: model registration is first-registration-wins — for an unregistered
name X, registering X with descriptor A and then with any descriptor B
returns from the second call exactly the entry and state of the first call;
the entry is the one compiled from A, and the only compilation logged is the
one for A, so the second call recompiles and re-synthesizes nothing even when
B differs from A. -/
theorem registerModel_first_registration_wins
    (st : RegistryState) (X : String) (A B : Definition) (o1 o2 : SchemaOptions)
    (h : st.models.lookup X = none) :
    registerModel (registerModel st X A o1).2 X B o2 = registerModel st X A o1 ∧
    (registerModel st X A o1).1 = addAutoMiddleware (addAutoIndexes (buildSchema A o1) A) X ∧
    (registerModel st X A o1).2.compiled = st.compiled ++ [(X, A)] := by
  have hfirst : registerModel st X A o1 =
      (addAutoMiddleware (addAutoIndexes (buildSchema A o1) A) X,
       { models := st.models ++ [(X, addAutoMiddleware (addAutoIndexes (buildSchema A o1) A) X)],
         schemas := st.schemas ++ [(X, addAutoMiddleware (addAutoIndexes (buildSchema A o1) A) X)],
         compiled := st.compiled ++ [(X, A)] }) := by
    unfold registerModel
    rw [h]
  have hsec : ((registerModel st X A o1).2).models.lookup X =
      some (registerModel st X A o1).1 := by
    rw [hfirst]
    exact lookup_append_singleton_of_none _ h
  have hhit : ∀ (st2 : RegistryState) (m : MSchema), st2.models.lookup X = some m →
      registerModel st2 X B o2 = (m, st2) := by
    intro st2 m hm
    unfold registerModel
    rw [hm]
  refine ⟨?_, by rw [hfirst], by rw [hfirst]⟩
  rw [hhit _ _ hsec]

/-- Witness for C2: on a fresh registry, registering X with a one-field
descriptor and then with a different descriptor returns the first entry and
leaves the state — including the compilation log — unchanged. -/
theorem registerModel_first_registration_wins_witness :
    registerModel (registerModel {} "X" [("a", RawEntry.token "string!")] {}).2 "X"
        [("b", RawEntry.token "number?")] {} =
      registerModel {} "X" [("a", RawEntry.token "string!")] {} ∧
    (registerModel {} "X" [("a", RawEntry.token "string!")] {}).1 =
      addAutoMiddleware (addAutoIndexes
        (buildSchema [("a", RawEntry.token "string!")] {}) [("a", RawEntry.token "string!")]) "X" ∧
    (registerModel {} "X" [("a", RawEntry.token "string!")] {}).2.compiled =
      ([] : List (String × Definition)) ++ [("X", [("a", RawEntry.token "string!")])] :=
  registerModel_first_registration_wins {} "X" [("a", RawEntry.token "string!")]
    [("b", RawEntry.token "number?")] {} {} rfl

theorem addAutoMiddleware_indexes (s : MSchema) (n : String) :
    (addAutoMiddleware s n).indexes = s.indexes := by
  unfold addAutoMiddleware
  dsimp only
  split <;> split <;> rfl

/-- C10: every first-time model registration from a raw descriptor — whatever
its fields and even with timestamps disabled in the schema options — adds a
descending createdAt index and a descending updatedAt index, plus an
ascending index on each field declared with a boolean shorthand token. -/
theorem registerModel_always_timestamp_and_boolean_indexes
    (st : RegistryState) (name : String) (d : Definition) (o : SchemaOptions)
    (h : st.models.lookup name = none) :
    ({ keys := [("createdAt", -1)] } : IndexSpec) ∈ (registerModel st name d o).1.indexes ∧
    ({ keys := [("updatedAt", -1)] } : IndexSpec) ∈ (registerModel st name d o).1.indexes ∧
    ∀ f tok, (tok = "boolean!" ∨ tok = "boolean?" ∨ tok = "boolean+") →
      (f, RawEntry.token tok) ∈ d →
      ({ keys := [(f, 1)] } : IndexSpec) ∈ (registerModel st name d o).1.indexes := by
  have hfst : (registerModel st name d o).1 =
      addAutoMiddleware (addAutoIndexes (buildSchema d o) d) name := by
    unfold registerModel
    rw [h]
  rw [hfst, addAutoMiddleware_indexes]
  unfold addAutoIndexes
  dsimp only
  refine ⟨by simp, by simp, fun f tok htok hmem => ?_⟩
  simp only [List.mem_append]
  right
  refine List.mem_filterMap.mpr ⟨(f, RawEntry.token tok), hmem, ?_⟩
  rcases htok with h1 | h1 | h1 <;> subst h1 <;> simp

/-- Witness for C10: a single boolean-token descriptor registered with
timestamps disabled still receives the createdAt, updatedAt and boolean-field
indexes. -/
theorem registerModel_always_timestamp_and_boolean_indexes_witness :
    ({ keys := [("createdAt", -1)] } : IndexSpec) ∈
      (registerModel {} "Flag" [("isActive", RawEntry.token "boolean+")]
        { timestamps := false }).1.indexes ∧
    ({ keys := [("updatedAt", -1)] } : IndexSpec) ∈
      (registerModel {} "Flag" [("isActive", RawEntry.token "boolean+")]
        { timestamps := false }).1.indexes ∧
    ({ keys := [("isActive", 1)] } : IndexSpec) ∈
      (registerModel {} "Flag" [("isActive", RawEntry.token "boolean+")]
        { timestamps := false }).1.indexes := by
  obtain ⟨h1, h2, h3⟩ := registerModel_always_timestamp_and_boolean_indexes {} "Flag"
    [("isActive", RawEntry.token "boolean+")] { timestamps := false } rfl
  exact ⟨h1, h2, h3 "isActive" "boolean+" (Or.inr (Or.inr rfl)) (by simp)⟩

end EasyMongoo
